import Mathlib

/-!
Shallow embedding of the ER-diagram editor (`src/unnamed/part_001`) for
checking the natural-language specification against the code.

Geometry is modelled over `ℚ` (the JavaScript code computes with IEEE
doubles; all claims under study are about exact arithmetic relationships,
so exact rationals are the faithful shallow embedding).  Browser-dependent
inputs (canvas text measurement, `Math.PI`, `Math.cos`/`Math.sin` of the
ring angles, the `Date.now()+random` id generator, the mutable
`defaultSizes` record, and the dagre layout library) are parameters of an
environment record `Env`; every definition is otherwise a direct
transcription of the source.
-/

/-- The runtime environment of the editor: text measurement per element
kind (`measureTextWidth` with the font configuration of
`getCurrentFontSizes`), the current `defaultSizes` record, the value of
`Math.PI`, the unit direction `(cos θ, sin θ)` of the `i`-th of `n`
attribute-ring angles (the angles depend only on `n` and `i`:
`startAngle n + i * 2π/n`), and the id generators (`Date.now()` plus a
random suffix in the source, indexed here by allocation order). -/
structure Env where
  measureEntity : String → ℚ
  measureAttr : String → ℚ
  measureRel : String → ℚ
  defaultEntityHeight : ℚ
  defaultAttrRy : ℚ
  defaultRelHeight : ℚ
  piQ : ℚ
  ringDir : ℕ → ℕ → ℚ × ℚ
  entityIdGen : ℕ → String
  attrIdGen : ℕ → String
  relIdGen : ℕ → String

/-- `class EREntity` (part_001 lines 254-269). -/
structure EREntity where
  id : String
  name : String
  displayName : String
  x : ℚ
  y : ℚ
  width : ℚ
  height : ℚ
  deriving DecidableEq, Repr

/-- `class ERAttribute` (part_001 lines 271-291). -/
structure ERAttribute where
  id : String
  name : String
  displayName : String
  comment : Option String
  type : String
  entityId : String
  isPK : Bool
  isFK : Bool
  x : ℚ
  y : ℚ
  rx : ℚ
  ry : ℚ
  deriving DecidableEq, Repr

/-- `class ERRelationship` (part_001 lines 293-313). -/
structure ERRelationship where
  id : String
  name : String
  displayName : String
  fromEntityId : String
  toEntityId : String
  type : String
  fromAttr : Option String
  toAttr : Option String
  x : ℚ
  y : ℚ
  width : ℚ
  height : ℚ
  deriving DecidableEq, Repr

/-- The Model: the global mutable arrays `entities`, `attributes`,
`relationships` of part_001 lines 5-7. -/
structure Model where
  entities : List EREntity
  attributes : List ERAttribute
  relationships : List ERRelationship
  deriving DecidableEq, Repr

/-- The clamp of `calculateEntityWidth` (part_001 lines 106-113) as a
function of the measured text width:
`Math.min(maxWidth, Math.max(minWidth, textWidth + padding))` with
`padding = 40`, `minWidth = 80`, `maxWidth = 300`. -/
def calculateEntityWidthCore (textWidth : ℚ) : ℚ :=
  min 300 (max 80 (textWidth + 40))

/-- `calculateEntityWidth` (part_001 lines 106-113). -/
def calculateEntityWidth (env : Env) (name : String) : ℚ :=
  calculateEntityWidthCore (env.measureEntity name)

/-- `calculateAttributeWidth` (part_001 lines 115-122):
`Math.min(150, Math.max(40, (textWidth + 30) / 2))`. -/
def calculateAttributeWidth (env : Env) (name : String) : ℚ :=
  min 150 (max 40 ((env.measureAttr name + 30) / 2))

/-- `calculateRelationshipWidth` (part_001 lines 124-131):
`Math.min(200, Math.max(50, textWidth + 30))`. -/
def calculateRelationshipWidth (env : Env) (name : String) : ℚ :=
  min 200 (max 50 (env.measureRel name + 30))

/-- JavaScript `displayName || name` on an optional string argument:
`null`/`undefined` and the empty string fall back to `name`. -/
def jsOrName (displayName : Option String) (name : String) : String :=
  match displayName with
  | some s => if s = "" then name else s
  | none => name

/-- The `EREntity` constructor (part_001 lines 255-263); the id string is
supplied by the caller's slot in the id-generation sequence. -/
def mkEntity (env : Env) (id : String) (name : String) (x y : ℚ)
    (displayName : Option String) : EREntity :=
  let dn := jsOrName displayName name
  { id := id, name := name, displayName := dn, x := x, y := y,
    width := calculateEntityWidth env dn,
    height := env.defaultEntityHeight }

/-- The `ERAttribute` constructor (part_001 lines 272-285). -/
def mkAttribute (env : Env) (id : String) (name : String) (type : String)
    (entityId : String) (isPK isFK : Bool) (displayName : Option String)
    (comment : Option String) : ERAttribute :=
  let dn := jsOrName displayName name
  { id := id, name := name, displayName := dn, comment := comment,
    type := type, entityId := entityId, isPK := isPK, isFK := isFK,
    x := 0, y := 0,
    rx := calculateAttributeWidth env dn,
    ry := env.defaultAttrRy }

/-- The `ERRelationship` constructor (part_001 lines 294-307). -/
def mkRelationship (env : Env) (id : String) (name : String)
    (fromEntityId toEntityId : String) (type : String)
    (displayName : Option String) (fromAttr toAttr : Option String) :
    ERRelationship :=
  let dn := jsOrName displayName name
  { id := id, name := name, displayName := dn,
    fromEntityId := fromEntityId, toEntityId := toEntityId, type := type,
    fromAttr := fromAttr, toAttr := toAttr,
    x := 0, y := 0,
    width := calculateRelationshipWidth env dn,
    height := env.defaultRelHeight }

/-- The divisor `scale = Math.max(Math.abs(dx)/halfW, Math.abs(dy)/halfH)`
of `getEntityBorderPoint` (part_001 line 823). -/
def borderPointScale (entity : EREntity) (targetX targetY : ℚ) : ℚ :=
  let cx := entity.x + entity.width / 2
  let cy := entity.y + entity.height / 2
  let dx := targetX - cx
  let dy := targetY - cy
  max (|dx| / (entity.width / 2)) (|dy| / (entity.height / 2))

/-- `getEntityBorderPoint` (part_001 lines 815-825). -/
def getEntityBorderPoint (entity : EREntity) (targetX targetY : ℚ) :
    ℚ × ℚ :=
  let cx := entity.x + entity.width / 2
  let cy := entity.y + entity.height / 2
  let dx := targetX - cx
  let dy := targetY - cy
  if dx = 0 ∧ dy = 0 then (cx, cy)
  else
    let scale := borderPointScale entity targetX targetY
    (cx + dx / scale, cy + dy / scale)

/-- The cardinality-symbol `switch (rel.type)` inside `updateConnections`
(part_001 lines 515-534): result is `(typeSymbolFrom, typeSymbolTo)`. -/
def updateConnectionsTypeSymbols (type : String) : String × String :=
  if type = "1:1" then ("1", "1")
  else if type = "1:N" then ("N", "1")
  else if type = "M:N" then ("M", "N")
  else ("N", "1")

/-- The drag event's pointer position (`event.x`, `event.y`). -/
structure DragEvent where
  x : ℚ
  y : ℚ
  deriving DecidableEq, Repr

/-- `draggedEntity` (part_001 lines 589-608): moves the dragged entity to
the pointer position and translates every attribute whose `entityId`
matches by the same delta.  Returns the updated entity and the updated
`attributes` array. -/
def draggedEntity (ev : DragEvent) (d : EREntity)
    (attributes : List ERAttribute) : EREntity × List ERAttribute :=
  let dx := ev.x - d.x
  let dy := ev.y - d.y
  let d' := { d with x := ev.x, y := ev.y }
  let attributes' := attributes.map fun a =>
    if a.entityId = d.id then { a with x := a.x + dx, y := a.y + dy }
    else a
  (d', attributes')

/-- The base attribute-ring radii of `arrangeAttributes`
(part_001 lines 836-847): base offsets from the entity half-size, scaled
by the perimeter-derived multiplier clipped at `1.5`, plus the fixed
extra spacing.  `2 * Math.PI * 80` is `2 * env.piQ * 80`. -/
def arrangeBaseRadii (env : Env) (entity : EREntity)
    (entityAttrs : List ERAttribute) : ℚ × ℚ :=
  let baseRadiusX := max (entity.width / 2 + 50) 80
  let baseRadiusY := max (entity.height / 2 + 40) 70
  let attrPerimeter :=
    entityAttrs.foldl (fun sum attr => sum + attr.rx * 2 + 20) 0
  let requiredCircumference := max attrPerimeter (2 * env.piQ * 80)
  let radiusMultiplier :=
    max 1 (requiredCircumference / (2 * env.piQ * 80))
  (baseRadiusX * min radiusMultiplier (3 / 2) + 30,
   baseRadiusY * min radiusMultiplier (3 / 2) + 25)

/-- One iteration of the proximity-avoidance loop of `arrangeAttributes`
(part_001 lines 855-867): when the other entity's center is within `200`
on both axes, grow the radius up to `min(minRequired, base * 1.3)`. -/
def proximityStep (entity : EREntity) (baseRadiusX baseRadiusY : ℚ)
    (fr : ℚ × ℚ) (other : EREntity) : ℚ × ℚ :=
  let distanceX :=
    |entity.x + entity.width / 2 - other.x - other.width / 2|
  let distanceY :=
    |entity.y + entity.height / 2 - other.y - other.height / 2|
  if distanceX < 200 ∧ distanceY < 200 then
    let minRequiredX := distanceX / 3 + other.width / 2 + 20
    let minRequiredY := distanceY / 3 + other.height / 2 + 20
    let frx := if fr.1 < minRequiredX
      then min minRequiredX (baseRadiusX * (13 / 10)) else fr.1
    let fry := if fr.2 < minRequiredY
      then min minRequiredY (baseRadiusY * (13 / 10)) else fr.2
    (frx, fry)
  else fr

/-- The proximity-avoidance loop of `arrangeAttributes`
(part_001 lines 849-867), starting from the base radii. -/
def arrangeFinalRadii (entity : EREntity) (otherEntities : List EREntity)
    (baseRadiusX baseRadiusY : ℚ) : ℚ × ℚ :=
  otherEntities.foldl (proximityStep entity baseRadiusX baseRadiusY)
    (baseRadiusX, baseRadiusY)

/-- The placement loop of `arrangeAttributes` (part_001 lines 879-883):
walk the `attributes` array assigning ring positions, in order, to the
attributes owned by the entity (`i` counts the owned attributes seen so
far, matching the index into the filtered `entityAttrs` array; `n` is the
count of owned attributes, fixing `angleStep` and `startAngle`). -/
def placeRing (env : Env) (entityId : String) (cx cy frx fry : ℚ)
    (n : ℕ) : ℕ → List ERAttribute → List ERAttribute
  | _, [] => []
  | i, a :: rest =>
    if a.entityId = entityId then
      { a with x := cx + (env.ringDir n i).1 * frx,
               y := cy + (env.ringDir n i).2 * fry }
        :: placeRing env entityId cx cy frx fry n (i + 1) rest
    else
      a :: placeRing env entityId cx cy frx fry n i rest

/-- `arrangeAttributes` (part_001 lines 828-884), acting on explicit
`entities`/`attributes` arrays instead of the globals. -/
def arrangeAttributes (env : Env) (entities : List EREntity)
    (attributes : List ERAttribute) (entityId : String) :
    List ERAttribute :=
  match entities.find? (·.id = entityId) with
  | none => attributes
  | some entity =>
    let entityAttrs := attributes.filter (·.entityId = entityId)
    if entityAttrs.isEmpty then attributes
    else
      let base := arrangeBaseRadii env entity entityAttrs
      let otherEntities := entities.filter (¬ ·.id = entityId)
      let fr := arrangeFinalRadii entity otherEntities base.1 base.2
      placeRing env entityId (entity.x + entity.width / 2)
        (entity.y + entity.height / 2) fr.1 fr.2 entityAttrs.length 0
        attributes

/-- `estimateAttributeRadii` (part_001 lines 792-810).  The result is
`(radiusX, radiusY, maxRx, maxRy)`; the source returns all zeros when the
attribute list is empty. -/
def estimateAttributeRadii (env : Env) (entity : EREntity)
    (entityAttrs : List ERAttribute) : ℚ × ℚ × ℚ × ℚ :=
  if entityAttrs.isEmpty then (0, 0, 0, 0)
  else
    let baseRadiusX := max (entity.width / 2 + 50) 80
    let baseRadiusY := max (entity.height / 2 + 40) 70
    let maxRx := entityAttrs.foldl (fun m a => max m a.rx) 30
    let maxRy := entityAttrs.foldl (fun m a => max m a.ry) 20
    let attrPerimeter :=
      entityAttrs.foldl (fun sum a => sum + a.rx * 2 + 20) 0
    let requiredCircumference := max attrPerimeter (2 * env.piQ * 80)
    let radiusMultiplier :=
      max 1 (requiredCircumference / (2 * env.piQ * 80))
    (baseRadiusX * min radiusMultiplier (3 / 2) + 30,
     baseRadiusY * min radiusMultiplier (3 / 2) + 25, maxRx, maxRy)

/-- A node of the dagre layout graph (`g_layout.setNode`,
part_001 lines 1169-1188): entity id, display-name label and the
effective size inflated by the estimated attribute ring. -/
structure DagreNode where
  id : String
  label : String
  width : ℚ
  height : ℚ
  deriving DecidableEq, Repr

/-- An edge of the dagre layout graph (`g_layout.setEdge`,
part_001 lines 1191-1196). -/
structure DagreEdge where
  source : String
  target : String
  label : String
  deriving DecidableEq, Repr

/-- The dagre layout graph built by `autoLayout`; the spacing
configuration (part_001 lines 1155-1163) is a fixed constant and so not
part of the value. -/
structure DagreGraph where
  nodes : List DagreNode
  edges : List DagreEdge
  deriving DecidableEq, Repr

/-- The dagre node built for one entity by `autoLayout`
(part_001 lines 1169-1188): the entity's box size inflated by the
estimated attribute ring when the entity owns attributes. -/
def entityLayoutNode (env : Env) (attributes : List ERAttribute)
    (entity : EREntity) : DagreNode :=
  let entityAttrs := attributes.filter (·.entityId = entity.id)
  if entityAttrs.isEmpty then
    { id := entity.id, label := entity.displayName,
      width := entity.width, height := entity.height }
  else
    let r := estimateAttributeRadii env entity entityAttrs
    let totalHalfW := max (entity.width / 2) (r.1 + r.2.2.1)
    let totalHalfH := max (entity.height / 2) (r.2.1 + r.2.2.2)
    { id := entity.id, label := entity.displayName,
      width := totalHalfW * 2, height := totalHalfH * 2 }

/-- The graph-building phase of `autoLayout` (part_001 lines 1152-1196):
one node per entity, sized by `estimateAttributeRadii` when the entity
owns attributes, and one edge per relationship. -/
def buildLayoutGraph (env : Env) (m : Model) : DagreGraph :=
  { nodes := m.entities.map (entityLayoutNode env m.attributes),
    edges := m.relationships.map fun rel =>
      { source := rel.fromEntityId, target := rel.toEntityId,
        label := rel.displayName } }

/-- The diamond position computed by the relationship-placement phase
of `autoLayout` (part_001 lines 1228-1251): the midpoint of the two
entity centers, nudged by `(25, 20)` when the centers are within `30` on
an axis; with an unresolved endpoint the position `(x, y)` is kept. -/
def layoutRelationshipPos (entities : List EREntity)
    (fromId toId : String) (x y : ℚ) : ℚ × ℚ :=
  match entities.find? (·.id = fromId), entities.find? (·.id = toId) with
  | some fromEntity, some toEntity =>
    let fromCenterX := fromEntity.x + fromEntity.width / 2
    let fromCenterY := fromEntity.y + fromEntity.height / 2
    let toCenterX := toEntity.x + toEntity.width / 2
    let toCenterY := toEntity.y + toEntity.height / 2
    let relX := (fromCenterX + toCenterX) / 2
    let relY := (fromCenterY + toCenterY) / 2
    let relX := if |fromCenterX - toCenterX| < 30 then relX + 25 else relX
    let relY := if |fromCenterY - toCenterY| < 30 then relY + 20 else relY
    (relX, relY)
  | _, _ => (x, y)

/-- The relationship-placement phase of `autoLayout`
(part_001 lines 1228-1251): center each diamond at the computed
position; relationships with an unresolved endpoint are left alone. -/
def layoutRelationship (entities : List EREntity) (rel : ERRelationship) :
    ERRelationship :=
  { rel with
    x := (layoutRelationshipPos entities rel.fromEntityId
      rel.toEntityId rel.x rel.y).1,
    y := (layoutRelationshipPos entities rel.fromEntityId
      rel.toEntityId rel.x rel.y).2 }

/-- The entity-placement phase of `autoLayout`
(part_001 lines 1205-1218): every entity is re-centered on its dagre
node's computed position.  `dagre` is the layout step (`dagre.layout`
followed by reading back `node.x`/`node.y`): a deterministic function
from the built graph to the center position of each node id.  The
source walks `g_layout.nodes()` and looks each id up in `entities`;
since ids are the graph's node keys this is the same as updating each
entity from its node's position. -/
def layoutEntities (env : Env) (dagre : DagreGraph → String → ℚ × ℚ)
    (m : Model) : List EREntity :=
  let graph := buildLayoutGraph env m
  m.entities.map fun entity =>
    let node := dagre graph entity.id
    { entity with x := node.1 - entity.width / 2,
                  y := node.2 - entity.height / 2 }

/-- `autoLayout` (part_001 lines 1135-1268): with no entities it is a
no-op; otherwise entities are placed from the dagre layout of the built
graph, every entity's attributes are re-ringed (`arrangeAttributes` per
entity, in order, on the shared attribute array), and relationships are
re-centered. -/
def autoLayout (env : Env) (dagre : DagreGraph → String → ℚ × ℚ)
    (m : Model) : Model :=
  if m.entities.isEmpty then m
  else
    let entities1 := layoutEntities env dagre m
    { entities := entities1,
      attributes := entities1.foldl
        (fun attrs entity =>
          arrangeAttributes env entities1 attrs entity.id)
        m.attributes,
      relationships :=
        m.relationships.map (layoutRelationship entities1) }

/-- Export bounds `{x, y, width, height}` (both export functions build
this record). -/
structure Bounds where
  x : ℚ
  y : ℚ
  width : ℚ
  height : ℚ
  deriving DecidableEq, Repr

/-- Extend a running `(minX, minY, maxX, maxY)` extent with a rectangle;
`none` is the initial `±Infinity`/`hasElements = false` state. -/
def mergeExtent (st : Option (ℚ × ℚ × ℚ × ℚ)) (x0 y0 x1 y1 : ℚ) :
    Option (ℚ × ℚ × ℚ × ℚ) :=
  match st with
  | none => some (x0, y0, x1, y1)
  | some (a, b, c, d) => some (min a x0, min b y0, max c x1, max d y1)

/-- The whole-diagram extent scan shared by `exportAsPNG`
(part_001 lines 1448-1507) and `exportAsSVG` (lines 1670-1727): the
min/max over every entity rectangle, attribute ellipse, relationship
diamond and, for each resolvable relationship, the two entity centers
used as connector endpoints.  `none` corresponds to the
`hasElements = false` fallback, which reads the rendered `getBBox()` and
is outside the model (the connector scan never fires in that state: it
needs a resolvable relationship endpoint, hence a scanned entity). -/
def exportExtents (m : Model) : Option (ℚ × ℚ × ℚ × ℚ) :=
  let s1 := m.entities.foldl
    (fun s e => mergeExtent s e.x e.y (e.x + e.width) (e.y + e.height))
    none
  let s2 := m.attributes.foldl
    (fun s a =>
      mergeExtent s (a.x - a.rx) (a.y - a.ry) (a.x + a.rx) (a.y + a.ry))
    s1
  let s3 := m.relationships.foldl
    (fun s r =>
      mergeExtent s (r.x - r.width / 2) (r.y - r.height / 2)
        (r.x + r.width / 2) (r.y + r.height / 2))
    s2
  m.relationships.foldl
    (fun s r =>
      match m.entities.find? (·.id = r.fromEntityId),
            m.entities.find? (·.id = r.toEntityId) with
      | some fe, some te =>
        let fcx := fe.x + fe.width / 2
        let fcy := fe.y + fe.height / 2
        let tcx := te.x + te.width / 2
        let tcy := te.y + te.height / 2
        mergeExtent s (min fcx tcx) (min fcy tcy) (max fcx tcx)
          (max fcy tcy)
      | _, _ => s)
    s3

/-- The whole-diagram export bounds of `exportAsPNG`
(part_001 lines 1509-1520): extents padded by `50` per side, then width
and height clamped up to the enforced minimums `400`/`300`. -/
def exportAsPNGWholeBounds (m : Model) : Option Bounds :=
  (exportExtents m).map fun e =>
    let b : Bounds := { x := e.1 - 50, y := e.2.1 - 50,
                        width := e.2.2.1 - e.1 + 50 * 2,
                        height := e.2.2.2 - e.2.1 + 50 * 2 }
    { b with width := max b.width 400, height := max b.height 300 }

/-- The whole-diagram export bounds of `exportAsSVG`
(part_001 lines 1729-1737): extents padded by `50` per side; the SVG
path applies no minimum clamp. -/
def exportAsSVGWholeBounds (m : Model) : Option Bounds :=
  (exportExtents m).map fun e =>
    { x := e.1 - 50, y := e.2.1 - 50,
      width := e.2.2.1 - e.1 + 50 * 2,
      height := e.2.2.2 - e.2.1 + 50 * 2 }

/-- An attribute record of the `/api/parse_sql` response
(`data.entities[].attributes[]`, part_001 lines 1074-1080). -/
structure ParsedAttribute where
  name : String
  displayName : Option String
  type : String
  isPK : Bool
  isFK : Bool
  comment : Option String
  deriving DecidableEq, Repr

/-- An entity record of the `/api/parse_sql` response
(part_001 lines 1065-1082). -/
structure ParsedEntity where
  name : String
  displayName : Option String
  attributes : List ParsedAttribute
  deriving DecidableEq, Repr

/-- A relationship record of the `/api/parse_sql` response
(part_001 lines 1084-1101); `fromName`/`toName` are the `from`/`to`
entity names. -/
structure ParsedRelationship where
  name : String
  displayName : Option String
  fromName : String
  toName : String
  type : Option String
  fromAttr : Option String
  toAttr : Option String
  deriving DecidableEq, Repr

/-- The parsed payload of a successful response. -/
structure ParseResponse where
  entities : List ParsedEntity
  relationships : List ParsedRelationship
  deriving DecidableEq, Repr

/-- Outcome of the `fetch('/api/parse_sql')` call in `doImport`: the
fetch (or `response.json()`) rejecting, a non-ok HTTP response (with the
`need_login` / `need_recharge` flags the handler distinguishes), or a
successful parse. -/
inductive ImportOutcome where
  | fetchRejected (message : String)
  | httpError (needLogin needRecharge : Bool) (error : Option String)
  | success (data : ParseResponse)
  deriving DecidableEq, Repr

/-- JavaScript `relData.type || '1:N'` (part_001 line 1092). -/
def jsOrType (type : Option String) (dflt : String) : String :=
  match type with
  | some s => if s = "" then dflt else s
  | none => dflt

/-- The Model built by the success path of `doImport`
(part_001 lines 1061-1101): entities placed on the `3 × k` import grid
with their attributes created and ring-arranged as each entity is added
(so each `arrangeAttributes` call sees only the entities imported so
far), then relationships resolved by entity name, skipping unresolved
endpoints, and centered between their entities.  The deferred
`autoLayout()` (line 1108) runs in a later timeout, after `doImport`'s
own mutation completes, and is modelled separately by `autoLayout`. -/
def importModel (env : Env) (data : ParseResponse) : Model :=
  let st := data.entities.foldl
    (fun (st : List EREntity × List ERAttribute × ℕ × ℕ) entityData =>
      let es := st.1
      let eIdx := st.2.2.1
      let entity := mkEntity env (env.entityIdGen eIdx) entityData.name
        (200 + ((eIdx % 3 : ℕ) : ℚ) * 300)
        (100 + ((eIdx / 3 : ℕ) : ℚ) * 300) entityData.displayName
      let withAttrs := entityData.attributes.foldl
        (fun (p : List ERAttribute × ℕ) attrData =>
          (p.1 ++ [mkAttribute env (env.attrIdGen p.2) attrData.name
            attrData.type entity.id attrData.isPK attrData.isFK
            attrData.displayName attrData.comment], p.2 + 1))
        (st.2.1, st.2.2.2)
      let es' := es ++ [entity]
      (es', arrangeAttributes env es' withAttrs.1 entity.id, eIdx + 1,
        withAttrs.2))
    ([], [], 0, 0)
  let entities := st.1
  let rels := (data.relationships.foldl
    (fun (p : List ERRelationship × ℕ) relData =>
      match entities.find? (·.name = relData.fromName),
            entities.find? (·.name = relData.toName) with
      | some fromEntity, some toEntity =>
        let rel := mkRelationship env (env.relIdGen p.2) relData.name
          fromEntity.id toEntity.id (jsOrType relData.type "1:N")
          relData.displayName relData.fromAttr relData.toAttr
        let rel := { rel with
          x := (fromEntity.x + toEntity.x) / 2 + fromEntity.width / 2,
          y := (fromEntity.y + toEntity.y) / 2 + fromEntity.height / 2 }
        (p.1 ++ [rel], p.2 + 1)
      | _, _ => p)
    ([], 0)).1
  { entities := entities, attributes := st.2.1, relationships := rels }

/-- `doImport` (part_001 lines 1028-1132) as a state transformer on the
Model: on a rejected fetch the `catch` block shows a toast and falls
through; on a non-ok response the handler returns (after the
`need_login` / `need_recharge` prompts) or throws into the same `catch`.
In every failure case control leaves the function before the
`entities = []; attributes = []; relationships = []` reassignment at
lines 1061-1063, so the Model keeps its previous value; only the success
path replaces it with the imported Model. -/
def doImport (env : Env) (outcome : ImportOutcome) (m : Model) : Model :=
  match outcome with
  | .fetchRejected _ => m
  | .httpError _ _ _ => m
  | .success data => importModel env data

/-- A saved attribute record inside a project snapshot
(`saveProject`, part_001 lines 2408-2424). -/
structure SavedAttribute where
  id : String
  name : String
  displayName : String
  type : String
  isPK : Bool
  isFK : Bool
  comment : Option String
  x : ℚ
  y : ℚ
  rx : ℚ
  ry : ℚ
  deriving DecidableEq, Repr

/-- A saved entity record, with its owned attributes nested
(`saveProject`, part_001 lines 2384-2424). -/
structure SavedEntity where
  id : String
  name : String
  displayName : String
  x : ℚ
  y : ℚ
  width : ℚ
  height : ℚ
  attributes : List SavedAttribute
  deriving DecidableEq, Repr

/-- A saved relationship record (`saveProject`,
part_001 lines 2393-2404); note `fromAttr`/`toAttr` are not saved. -/
structure SavedRelationship where
  id : String
  name : String
  displayName : String
  fromEntityId : String
  toEntityId : String
  type : String
  x : ℚ
  y : ℚ
  width : ℚ
  height : ℚ
  deriving DecidableEq, Repr

/-- The persistence snapshot (`projectData`); the `project_id` and
project name are bookkeeping outside the Model. -/
structure ProjectData where
  sql : String
  entities : List SavedEntity
  relationships : List SavedRelationship
  deriving DecidableEq, Repr

/-- The snapshot construction of `saveProject`
(part_001 lines 2378-2424): each saved entity carries the attributes
whose `entityId` matches its id. -/
def saveProject (sql : String) (m : Model) : ProjectData :=
  { sql := sql,
    entities := m.entities.map fun e =>
      { id := e.id, name := e.name, displayName := e.displayName,
        x := e.x, y := e.y, width := e.width, height := e.height,
        attributes := (m.attributes.filter (·.entityId = e.id)).map
          fun a =>
            { id := a.id, name := a.name, displayName := a.displayName,
              type := a.type, isPK := a.isPK, isFK := a.isFK,
              comment := a.comment, x := a.x, y := a.y, rx := a.rx,
              ry := a.ry } },
    relationships := m.relationships.map fun r =>
      { id := r.id, name := r.name, displayName := r.displayName,
        fromEntityId := r.fromEntityId, toEntityId := r.toEntityId,
        type := r.type, x := r.x, y := r.y, width := r.width,
        height := r.height } }

/-- Attribute reconstruction inside `loadProject`
(part_001 lines 2490-2506): `new ERAttribute(...)` followed by
overwriting `id`, `x`, `y`, `rx`, `ry` with the saved values. -/
def loadAttribute (env : Env) (entityId : String) (a : SavedAttribute) :
    ERAttribute :=
  { mkAttribute env "attr_local" a.name a.type entityId a.isPK a.isFK
      (some a.displayName) a.comment with
    id := a.id, x := a.x, y := a.y, rx := a.rx, ry := a.ry }

/-- Entity reconstruction inside `loadProject`
(part_001 lines 2476-2486): `new EREntity(name, x, y, displayName)`
followed by overwriting `id`, `width`, `height` with the saved values. -/
def loadEntity (env : Env) (e : SavedEntity) : EREntity :=
  { mkEntity env "entity_local" e.name e.x e.y (some e.displayName) with
    id := e.id, width := e.width, height := e.height }

/-- Relationship reconstruction inside `loadProject`
(part_001 lines 2511-2525): `new ERRelationship(name, from, to, type,
displayName)` (so `fromAttr`/`toAttr` are `null`) followed by
overwriting `id`, `x`, `y`, `width`, `height` with the saved values. -/
def loadRelationship (env : Env) (r : SavedRelationship) :
    ERRelationship :=
  { mkRelationship env "rel_local" r.name r.fromEntityId r.toEntityId
      r.type (some r.displayName) none none with
    id := r.id, x := r.x, y := r.y, width := r.width,
    height := r.height }

/-- The Model reconstruction of `loadProject`
(part_001 lines 2466-2525): the previous Model is discarded wholesale
and rebuilt from the snapshot, restoring each entity's attributes in
their saved (per-entity) grouping. -/
def loadProject (env : Env) (p : ProjectData) : Model :=
  { entities := p.entities.map (loadEntity env),
    attributes := p.entities.flatMap fun e =>
      e.attributes.map (loadAttribute env e.id),
    relationships := p.relationships.map (loadRelationship env) }

/-- The position-independent part of an attribute: `x`/`y` zeroed.  Every
layout pass rewrites only attribute positions, so the image of this map
is invariant across `arrangeAttributes`; the ring radii and angles are
functions of it. -/
def attrShape (a : ERAttribute) : ERAttribute := { a with x := 0, y := 0 }

/-- A concrete environment for evaluating the definitions on witness
inputs: zero-width text metrics, the initial `defaultSizes`, a rational
`Math.PI`, the top-of-circle ring direction, and counter-based ids. -/
def envW : Env :=
  { measureEntity := fun _ => 0
    measureAttr := fun _ => 0
    measureRel := fun _ => 0
    defaultEntityHeight := 60
    defaultAttrRy := 25
    defaultRelHeight := 50
    piQ := 314159 / 100000
    ringDir := fun _ _ => (0, -1)
    entityIdGen := fun n => "entity_w" ++ toString n
    attrIdGen := fun n => "attr_w" ++ toString n
    relIdGen := fun n => "rel_w" ++ toString n }

/-- The entity of the spec's export scenario: position `(100, 100)`,
size `(120, 60)`. -/
def entityScenario : EREntity :=
  { id := "entity_s1", name := "E", displayName := "E",
    x := 100, y := 100, width := 120, height := 60 }

/-- The spec's export scenario: exactly one entity, no attributes, no
relationships. -/
def modelScenario : Model :=
  { entities := [entityScenario], attributes := [], relationships := [] }

/-- A concrete attribute owned by the scenario entity, for the
`draggedEntity` witness. -/
def attrOwnedW : ERAttribute :=
  { id := "attr_s1", name := "a", displayName := "a", comment := none,
    type := "INT", entityId := "entity_s1", isPK := true, isFK := false,
    x := 40, y := 20, rx := 40, ry := 25 }

/-- A Model outside the round-trip theorem's hypotheses: its entity has
an empty display name (with a different canonical name) and its single
attribute references no live entity. -/
def modelBlankAndOrphan : Model :=
  { entities := [{ id := "e1", name := "Employee", displayName := "",
                   x := 0, y := 0, width := 120, height := 60 }],
    attributes := [{ id := "a1", name := "c", displayName := "c",
                     comment := none, type := "INT", entityId := "ghost",
                     isPK := false, isFK := false, x := 1, y := 2,
                     rx := 40, ry := 25 }],
    relationships := [] }

/-- A self-relationship of the scenario entity carrying a `fromAttr`,
for the round-trip witness. -/
def relOwnedW : ERRelationship :=
  { id := "rel_s1", name := "belongs_to", displayName := "belongs_to",
    fromEntityId := "entity_s1", toEntityId := "entity_s1",
    type := "1:N", fromAttr := some "a", toAttr := none,
    x := 10, y := 20, width := 80, height := 50 }

/-- A well-formed Model (unique ids, resolving ownership, non-empty
display names) for the round-trip witness: the scenario entity, its
owned attribute, and a self-relationship carrying a `fromAttr`. -/
def modelRoundtripW : Model :=
  { entities := [entityScenario],
    attributes := [attrOwnedW],
    relationships := [relOwnedW] }

/-- The Model produced by the non-empty branch of `autoLayout` (used to
state the stability of a second run). -/
def autoLayoutResult (env : Env) (dagre : DagreGraph → String → ℚ × ℚ)
    (m : Model) : Model :=
  { entities := layoutEntities env dagre m,
    attributes := (layoutEntities env dagre m).foldl
      (fun attrs entity =>
        arrangeAttributes env (layoutEntities env dagre m) attrs
          entity.id)
      m.attributes,
    relationships :=
      m.relationships.map
        (layoutRelationship (layoutEntities env dagre m)) }

/-! ## Theorems -/

/-- C7: for every display name, the derived entity width lies between the
clamp bounds `minWidth = 80` and `maxWidth = 300`, and the width is
monotonically non-decreasing as a function of the measured text width. -/
theorem calculateEntityWidth_clamped_and_monotone :
    (∀ (env : Env) (name : String),
      80 ≤ calculateEntityWidth env name ∧
        calculateEntityWidth env name ≤ 300) ∧
    ∀ t₁ t₂ : ℚ, t₁ ≤ t₂ →
      calculateEntityWidthCore t₁ ≤ calculateEntityWidthCore t₂ := by
  constructor
  · intro env name
    unfold calculateEntityWidth calculateEntityWidthCore
    constructor
    · exact le_min (by norm_num) (le_max_left _ _)
    · exact min_le_left _ _
  · intro t₁ t₂ h
    unfold calculateEntityWidthCore
    exact min_le_min le_rfl (max_le_max le_rfl (add_le_add_right h 40))

/-- Witness for the monotonicity hypothesis of
`calculateEntityWidth_clamped_and_monotone` at `t₁ = 1`, `t₂ = 7`. -/
theorem calculateEntityWidth_clamped_and_monotone_witness :
    (1 : ℚ) ≤ 7 ∧
      calculateEntityWidthCore 1 ≤ calculateEntityWidthCore 7 :=
  ⟨by norm_num,
    calculateEntityWidth_clamped_and_monotone.2 1 7 (by norm_num)⟩

/-- C8: the cardinality symbols assigned at the `(from, to)` connector
ends by `updateConnections` as a function of the relationship type:
`1:1 ↦ ("1","1")`, `1:N ↦ ("N","1")` (the from entity is the many side),
`M:N ↦ ("M","N")`, and any unrecognized type defaults to `1:N`'s
symbols. -/
theorem updateConnections_cardinality_symbols :
    updateConnectionsTypeSymbols "1:1" = ("1", "1") ∧
    updateConnectionsTypeSymbols "1:N" = ("N", "1") ∧
    updateConnectionsTypeSymbols "M:N" = ("M", "N") ∧
    ∀ type : String, type ≠ "1:1" → type ≠ "1:N" → type ≠ "M:N" →
      updateConnectionsTypeSymbols type = ("N", "1") := by
  refine ⟨by decide, by decide, by decide, ?_⟩
  intro type h1 h2 h3
  simp [updateConnectionsTypeSymbols, h1, h2, h3]

/-- Witness for the default case of
`updateConnections_cardinality_symbols` at the unrecognized type
`"2:3"`. -/
theorem updateConnections_cardinality_symbols_witness :
    updateConnectionsTypeSymbols "2:3" = ("N", "1") :=
  updateConnections_cardinality_symbols.2.2.2 "2:3" (by decide)
    (by decide) (by decide)

/-- C2: when the parse request fails — the fetch rejects, or the HTTP
response is not ok (including the `need_login` and `need_recharge`
cases) — `doImport` leaves the Model unchanged: the entities, attributes
and relationships collections hold exactly the elements they held
before, with no partial entities added. -/
theorem doImport_failure_leaves_model_unchanged :
    ∀ (env : Env) (m : Model),
      (∀ message, doImport env (.fetchRejected message) m = m) ∧
      ∀ (needLogin needRecharge : Bool) (error : Option String),
        doImport env (.httpError needLogin needRecharge error) m = m :=
  fun _ _ => ⟨fun _ => rfl, fun _ _ _ => rfl⟩

/-- C6: `draggedEntity` moves the entity to the pointer position, and for
every index of the attributes array, an attribute owned by the dragged
entity is translated by exactly the drag delta `(dx, dy)` while an
attribute of any other entity is unchanged. -/
theorem draggedEntity_translates_owned_attributes
    (ev : DragEvent) (d : EREntity) (attrs : List ERAttribute) (i : ℕ) :
    (draggedEntity ev d attrs).1.x = ev.x ∧
    (draggedEntity ev d attrs).1.y = ev.y ∧
    ∀ a : ERAttribute, attrs[i]? = some a →
      (a.entityId = d.id →
        (draggedEntity ev d attrs).2[i]? =
          some { a with x := a.x + (ev.x - d.x),
                        y := a.y + (ev.y - d.y) }) ∧
      (a.entityId ≠ d.id → (draggedEntity ev d attrs).2[i]? = some a) := by
  refine ⟨rfl, rfl, ?_⟩
  intro a ha
  unfold draggedEntity
  simp only [List.getElem?_map, ha, Option.map_some']
  constructor
  · intro hown
    rw [if_pos hown]
  · intro hother
    rw [if_neg hother]

/-- Witness for `draggedEntity_translates_owned_attributes`: dragging
`entityScenario` (at `(100,100)`) to `(130,150)` translates its owned
attribute at index `0` by `(30, 50)`. -/
theorem draggedEntity_translates_owned_attributes_witness :
    (draggedEntity ⟨130, 150⟩ entityScenario [attrOwnedW]).2[0]? =
      some { attrOwnedW with
        x := attrOwnedW.x + ((130 : ℚ) - entityScenario.x),
        y := attrOwnedW.y + ((150 : ℚ) - entityScenario.y) } :=
  ((draggedEntity_translates_owned_attributes ⟨130, 150⟩ entityScenario
      [attrOwnedW] 0).2.2 attrOwnedW rfl).1 rfl

/-- Both base ring radii of `arrangeAttributes` are nonnegative: the
base offsets are at least `80`/`70`, the multiplier is clipped to
`[1, 1.5]`, and `30`/`25` are added. -/
theorem arrangeBaseRadii_nonneg (env : Env) (entity : EREntity)
    (entityAttrs : List ERAttribute) :
    0 ≤ (arrangeBaseRadii env entity entityAttrs).1 ∧
      0 ≤ (arrangeBaseRadii env entity entityAttrs).2 := by
  unfold arrangeBaseRadii
  dsimp only
  have h1 : (80 : ℚ) ≤ max (entity.width / 2 + 50) 80 := le_max_right _ _
  have h2 : (70 : ℚ) ≤ max (entity.height / 2 + 40) 70 := le_max_right _ _
  have h3 : (1 : ℚ) ≤
      min (max 1 ((max
        (entityAttrs.foldl (fun sum attr => sum + attr.rx * 2 + 20) 0)
        (2 * env.piQ * 80)) / (2 * env.piQ * 80))) (3 / 2) :=
    le_min (le_max_left _ _) (by norm_num)
  constructor
  · have hAB : (0 : ℚ) ≤ max (entity.width / 2 + 50) 80 *
        min (max 1 ((max
          (entityAttrs.foldl (fun sum attr => sum + attr.rx * 2 + 20) 0)
          (2 * env.piQ * 80)) / (2 * env.piQ * 80))) (3 / 2) :=
      mul_nonneg (le_trans (by norm_num) h1) (le_trans (by norm_num) h3)
    exact add_nonneg hAB (by norm_num)
  · have hAB : (0 : ℚ) ≤ max (entity.height / 2 + 40) 70 *
        min (max 1 ((max
          (entityAttrs.foldl (fun sum attr => sum + attr.rx * 2 + 20) 0)
          (2 * env.piQ * 80)) / (2 * env.piQ * 80))) (3 / 2) :=
      mul_nonneg (le_trans (by norm_num) h2) (le_trans (by norm_num) h3)
    exact add_nonneg hAB (by norm_num)

/-- One proximity step keeps both radii at or below `1.3` times the
base radii. -/
theorem proximityStep_bound (entity other : EREntity)
    (baseRadiusX baseRadiusY : ℚ) (fr : ℚ × ℚ)
    (hx : fr.1 ≤ 13 / 10 * baseRadiusX)
    (hy : fr.2 ≤ 13 / 10 * baseRadiusY) :
    (proximityStep entity baseRadiusX baseRadiusY fr other).1 ≤
        13 / 10 * baseRadiusX ∧
      (proximityStep entity baseRadiusX baseRadiusY fr other).2 ≤
        13 / 10 * baseRadiusY := by
  unfold proximityStep
  dsimp only
  split_ifs with hc h1 h2 h3 <;>
    refine ⟨?_, ?_⟩ <;>
    first
      | exact hx
      | exact hy
      | exact le_trans (min_le_right _ _) (le_of_eq (by ring))

/-- Folding proximity steps over any neighbor list preserves the `1.3×`
bound on both radii. -/
theorem foldl_proximityStep_bound (entity : EREntity)
    (baseRadiusX baseRadiusY : ℚ) :
    ∀ (l : List EREntity) (fr : ℚ × ℚ),
      fr.1 ≤ 13 / 10 * baseRadiusX → fr.2 ≤ 13 / 10 * baseRadiusY →
      (l.foldl (proximityStep entity baseRadiusX baseRadiusY) fr).1 ≤
          13 / 10 * baseRadiusX ∧
        (l.foldl (proximityStep entity baseRadiusX baseRadiusY) fr).2 ≤
          13 / 10 * baseRadiusY := by
  intro l
  induction l with
  | nil => intro fr hx hy; exact ⟨hx, hy⟩
  | cons other rest ih =>
    intro fr hx hy
    obtain ⟨hx', hy'⟩ :=
      proximityStep_bound entity other baseRadiusX baseRadiusY fr hx hy
    exact ih _ hx' hy'

/-- C5: for every entity and every configuration of neighboring
entities, the proximity adjustment of `arrangeAttributes` never produces
a final ring radius above `1.5` times its unadjusted base value (the
code in fact clips at `1.3×`, and the base radii are nonnegative). -/
theorem arrangeAttributes_final_radius_clipped :
    ∀ (env : Env) (entity : EREntity) (entityAttrs : List ERAttribute)
      (otherEntities : List EREntity),
      (arrangeFinalRadii entity otherEntities
          (arrangeBaseRadii env entity entityAttrs).1
          (arrangeBaseRadii env entity entityAttrs).2).1 ≤
        3 / 2 * (arrangeBaseRadii env entity entityAttrs).1 ∧
      (arrangeFinalRadii entity otherEntities
          (arrangeBaseRadii env entity entityAttrs).1
          (arrangeBaseRadii env entity entityAttrs).2).2 ≤
        3 / 2 * (arrangeBaseRadii env entity entityAttrs).2 := by
  intro env entity entityAttrs otherEntities
  obtain ⟨hbX, hbY⟩ := arrangeBaseRadii_nonneg env entity entityAttrs
  obtain ⟨h1, h2⟩ := foldl_proximityStep_bound entity
    (arrangeBaseRadii env entity entityAttrs).1
    (arrangeBaseRadii env entity entityAttrs).2 otherEntities
    ((arrangeBaseRadii env entity entityAttrs).1,
      (arrangeBaseRadii env entity entityAttrs).2)
    (by
      dsimp only
      have := mul_le_mul_of_nonneg_right
        (show (1 : ℚ) ≤ 13 / 10 by norm_num) hbX
      simpa using this)
    (by
      dsimp only
      have := mul_le_mul_of_nonneg_right
        (show (1 : ℚ) ≤ 13 / 10 by norm_num) hbY
      simpa using this)
  unfold arrangeFinalRadii
  have hX : (13 : ℚ) / 10 *
        (arrangeBaseRadii env entity entityAttrs).1 ≤
      3 / 2 * (arrangeBaseRadii env entity entityAttrs).1 :=
    mul_le_mul_of_nonneg_right (by norm_num) hbX
  have hY : (13 : ℚ) / 10 *
        (arrangeBaseRadii env entity entityAttrs).2 ≤
      3 / 2 * (arrangeBaseRadii env entity entityAttrs).2 :=
    mul_le_mul_of_nonneg_right (by norm_num) hbY
  exact ⟨le_trans h1 hX, le_trans h2 hY⟩

/-- The divisor of `getEntityBorderPoint` is strictly positive whenever
the target differs from the entity center and the entity has positive
size. -/
theorem borderPointScale_pos (entity : EREntity) (targetX targetY : ℚ)
    (hW : 0 < entity.width) (hH : 0 < entity.height)
    (hne : ¬(targetX - (entity.x + entity.width / 2) = 0 ∧
             targetY - (entity.y + entity.height / 2) = 0)) :
    0 < borderPointScale entity targetX targetY := by
  unfold borderPointScale
  dsimp only
  rcases not_and_or.mp hne with hx | hy
  · exact lt_of_lt_of_le (div_pos (abs_pos.mpr hx) (half_pos hW))
      (le_max_left _ _)
  · exact lt_of_lt_of_le (div_pos (abs_pos.mpr hy) (half_pos hH))
      (le_max_right _ _)

/-- C10: `getEntityBorderPoint` is total: if the target coincides with
the entity center it returns the center itself (no division), and
otherwise the divisor `scale` is strictly positive — so over positive
entity sizes the result is always a well-defined point. -/
theorem getEntityBorderPoint_total (entity : EREntity)
    (targetX targetY : ℚ) (hW : 0 < entity.width)
    (hH : 0 < entity.height) :
    ((targetX - (entity.x + entity.width / 2) = 0 ∧
        targetY - (entity.y + entity.height / 2) = 0) →
      getEntityBorderPoint entity targetX targetY =
        (entity.x + entity.width / 2,
          entity.y + entity.height / 2)) ∧
    (¬(targetX - (entity.x + entity.width / 2) = 0 ∧
        targetY - (entity.y + entity.height / 2) = 0) →
      0 < borderPointScale entity targetX targetY) := by
  constructor
  · intro h
    unfold getEntityBorderPoint
    rw [if_pos h]
  · exact borderPointScale_pos entity targetX targetY hW hH

/-- Witness for `getEntityBorderPoint_total`: the scenario entity at
`(100,100)` with size `(120,60)` and target `(300,130)` gives a strictly
positive divisor. -/
theorem getEntityBorderPoint_total_witness :
    0 < borderPointScale entityScenario 300 130 :=
  (getEntityBorderPoint_total entityScenario 300 130
    (by norm_num [entityScenario]) (by norm_num [entityScenario])).2
    (by norm_num [entityScenario])

/-- C9: for a positively sized entity and a target distinct from its
center, `getEntityBorderPoint` returns the intersection of the ray from
the entity center toward the target with the entity's rectangular
border: the point lies within the rectangle's half-extents with equality
on at least one axis, is a positive scalar multiple of the
center-to-target direction (so it is collinear with center and target
and on the target's side), and is not the raw center. -/
theorem getEntityBorderPoint_ray_border_intersection (entity : EREntity)
    (targetX targetY : ℚ) (hW : 0 < entity.width)
    (hH : 0 < entity.height)
    (hne : ¬(targetX - (entity.x + entity.width / 2) = 0 ∧
             targetY - (entity.y + entity.height / 2) = 0)) :
    |(getEntityBorderPoint entity targetX targetY).1 -
        (entity.x + entity.width / 2)| ≤ entity.width / 2 ∧
    |(getEntityBorderPoint entity targetX targetY).2 -
        (entity.y + entity.height / 2)| ≤ entity.height / 2 ∧
    (|(getEntityBorderPoint entity targetX targetY).1 -
        (entity.x + entity.width / 2)| = entity.width / 2 ∨
      |(getEntityBorderPoint entity targetX targetY).2 -
        (entity.y + entity.height / 2)| = entity.height / 2) ∧
    (∃ t : ℚ, 0 < t ∧
      (getEntityBorderPoint entity targetX targetY).1 -
          (entity.x + entity.width / 2) =
        t * (targetX - (entity.x + entity.width / 2)) ∧
      (getEntityBorderPoint entity targetX targetY).2 -
          (entity.y + entity.height / 2) =
        t * (targetY - (entity.y + entity.height / 2))) ∧
    getEntityBorderPoint entity targetX targetY ≠
      (entity.x + entity.width / 2, entity.y + entity.height / 2) := by
  have hhW : 0 < entity.width / 2 := half_pos hW
  have hhH : 0 < entity.height / 2 := half_pos hH
  have hs := borderPointScale_pos entity targetX targetY hW hH hne
  have hp : getEntityBorderPoint entity targetX targetY =
      ((entity.x + entity.width / 2) +
          (targetX - (entity.x + entity.width / 2)) /
            borderPointScale entity targetX targetY,
        (entity.y + entity.height / 2) +
          (targetY - (entity.y + entity.height / 2)) /
            borderPointScale entity targetX targetY) := by
    unfold getEntityBorderPoint
    rw [if_neg hne]
  set s := borderPointScale entity targetX targetY with hsdef
  set dx := targetX - (entity.x + entity.width / 2) with hdx
  set dy := targetY - (entity.y + entity.height / 2) with hdy
  have hsmax : s = max (|dx| / (entity.width / 2))
      (|dy| / (entity.height / 2)) := by
    rw [hsdef]; unfold borderPointScale; rw [hdx, hdy]
  have h1 : (getEntityBorderPoint entity targetX targetY).1 -
      (entity.x + entity.width / 2) = dx / s := by rw [hp]; ring
  have h2 : (getEntityBorderPoint entity targetX targetY).2 -
      (entity.y + entity.height / 2) = dy / s := by rw [hp]; ring
  have habsx : |dx / s| = |dx| / s := by
    rw [abs_div, abs_of_pos hs]
  have habsy : |dy / s| = |dy| / s := by
    rw [abs_div, abs_of_pos hs]
  have hbx : |dx| / s ≤ entity.width / 2 := by
    rw [div_le_iff₀ hs]
    have := le_max_left (|dx| / (entity.width / 2))
      (|dy| / (entity.height / 2))
    rw [← hsmax] at this
    calc |dx| = |dx| / (entity.width / 2) * (entity.width / 2) := by
          field_simp
      _ ≤ s * (entity.width / 2) := by
          exact mul_le_mul_of_nonneg_right this (le_of_lt hhW)
      _ = entity.width / 2 * s := by ring
  have hby : |dy| / s ≤ entity.height / 2 := by
    rw [div_le_iff₀ hs]
    have := le_max_right (|dx| / (entity.width / 2))
      (|dy| / (entity.height / 2))
    rw [← hsmax] at this
    calc |dy| = |dy| / (entity.height / 2) * (entity.height / 2) := by
          field_simp
      _ ≤ s * (entity.height / 2) := by
          exact mul_le_mul_of_nonneg_right this (le_of_lt hhH)
      _ = entity.height / 2 * s := by ring
  have hedge : |dx| / s = entity.width / 2 ∨
      |dy| / s = entity.height / 2 := by
    rcases le_total (|dx| / (entity.width / 2))
        (|dy| / (entity.height / 2)) with hc | hc
    · right
      have hse : s = |dy| / (entity.height / 2) := by
        rw [hsmax]; exact max_eq_right hc
      have : |dy| = s * (entity.height / 2) := by
        rw [hse]; field_simp
      rw [this, mul_comm, mul_div_assoc, div_self (ne_of_gt hs), mul_one]
    · left
      have hse : s = |dx| / (entity.width / 2) := by
        rw [hsmax]; exact max_eq_left hc
      have : |dx| = s * (entity.width / 2) := by
        rw [hse]; field_simp
      rw [this, mul_comm, mul_div_assoc, div_self (ne_of_gt hs), mul_one]
  refine ⟨?_, ?_, ?_, ?_, ?_⟩
  · rw [h1, habsx]; exact hbx
  · rw [h2, habsy]; exact hby
  · rcases hedge with h | h
    · exact Or.inl (by rw [h1, habsx]; exact h)
    · exact Or.inr (by rw [h2, habsy]; exact h)
  · refine ⟨1 / s, by positivity, ?_, ?_⟩
    · rw [h1]; ring
    · rw [h2]; ring
  · intro heq
    have hx0 : dx / s = 0 := by
      have h := congrArg Prod.fst heq
      rw [hp] at h
      dsimp at h
      exact add_left_cancel (h.trans (add_zero _).symm)
    have hy0 : dy / s = 0 := by
      have h := congrArg Prod.snd heq
      rw [hp] at h
      dsimp at h
      exact add_left_cancel (h.trans (add_zero _).symm)
    have hdx0 : dx = 0 := by
      rcases div_eq_zero_iff.mp hx0 with h | h
      · exact h
      · exact absurd h (ne_of_gt hs)
    have hdy0 : dy = 0 := by
      rcases div_eq_zero_iff.mp hy0 with h | h
      · exact h
      · exact absurd h (ne_of_gt hs)
    exact hne ⟨hdx0, hdy0⟩

/-- Witness for `getEntityBorderPoint_ray_border_intersection`: the
scenario entity with target `(300, 130)` (horizontally to the right of
the center `(160, 130)`). -/
theorem getEntityBorderPoint_ray_border_intersection_witness :
    |(getEntityBorderPoint entityScenario 300 130).1 -
        (entityScenario.x + entityScenario.width / 2)| ≤
      entityScenario.width / 2 ∧
    |(getEntityBorderPoint entityScenario 300 130).2 -
        (entityScenario.y + entityScenario.height / 2)| ≤
      entityScenario.height / 2 ∧
    (|(getEntityBorderPoint entityScenario 300 130).1 -
        (entityScenario.x + entityScenario.width / 2)| =
      entityScenario.width / 2 ∨
      |(getEntityBorderPoint entityScenario 300 130).2 -
        (entityScenario.y + entityScenario.height / 2)| =
      entityScenario.height / 2) ∧
    (∃ t : ℚ, 0 < t ∧
      (getEntityBorderPoint entityScenario 300 130).1 -
          (entityScenario.x + entityScenario.width / 2) =
        t * (300 - (entityScenario.x + entityScenario.width / 2)) ∧
      (getEntityBorderPoint entityScenario 300 130).2 -
          (entityScenario.y + entityScenario.height / 2) =
        t * (130 - (entityScenario.y + entityScenario.height / 2))) ∧
    getEntityBorderPoint entityScenario 300 130 ≠
      (entityScenario.x + entityScenario.width / 2,
        entityScenario.y + entityScenario.height / 2) :=
  getEntityBorderPoint_ray_border_intersection entityScenario 300 130
    (by norm_num [entityScenario]) (by norm_num [entityScenario])
    (by norm_num [entityScenario])

/-- C1 counterexample: on the spec's single-entity scenario the SVG
whole-diagram bounds are the padded tight box `(50, 50, 220, 160)` with
no minimum clamp applied, while the PNG bounds are clamped to
`(50, 50, 400, 300)` — so the claim that both exports clamp to the
enforced minimum bounds is false for `exportAsSVG`. -/
theorem exportAsSVG_whole_bounds_not_clamped :
    exportAsSVGWholeBounds modelScenario =
      some { x := 50, y := 50, width := 220, height := 160 } ∧
    exportAsPNGWholeBounds modelScenario =
      some { x := 50, y := 50, width := 400, height := 300 } ∧
    (220 : ℚ) < 400 ∧ (160 : ℚ) < 300 := by
  refine ⟨?_, ?_, by norm_num, by norm_num⟩ <;>
  · simp only [exportAsSVGWholeBounds, exportAsPNGWholeBounds,
      exportExtents, modelScenario, entityScenario, mergeExtent,
      List.foldl, Option.map]
    norm_num

/-- C1 amended: both exports share the padded tight-bounding-box
computation, but only the PNG export clamps the result up to the
enforced minimum `400 × 300`; the SVG export applies no minimum.  On
the single-entity scenario at `(100,100)` with size `(120,60)` the PNG
bounds are `(100-50, 100-50, max (120+2*50) 400, max (60+2*50) 300) =
(50, 50, 400, 300)` and the SVG bounds are `(50, 50, 220, 160)`. -/
theorem exportBounds_png_clamps_svg_unclamped :
    (∀ m : Model,
      exportAsPNGWholeBounds m = (exportAsSVGWholeBounds m).map fun b =>
        { b with width := max b.width 400,
                 height := max b.height 300 }) ∧
    exportAsPNGWholeBounds modelScenario =
      some { x := 50, y := 50, width := max (120 + 2 * 50) 400,
             height := max (60 + 2 * 50) 300 } ∧
    exportAsSVGWholeBounds modelScenario =
      some { x := 50, y := 50, width := 120 + 2 * 50,
             height := 60 + 2 * 50 } := by
  refine ⟨?_, ?_, ?_⟩
  · intro m
    unfold exportAsPNGWholeBounds exportAsSVGWholeBounds
    rw [Option.map_map]
    rfl
  all_goals
  · simp only [exportAsSVGWholeBounds, exportAsPNGWholeBounds,
      exportExtents, modelScenario, entityScenario, mergeExtent,
      List.foldl, Option.map]
    norm_num

/-- `flatMap` congruence on the members of the list. -/
theorem flatMap_congr_mem {α β : Type} {l : List α} {f g : α → List β}
    (h : ∀ a ∈ l, f a = g a) : l.flatMap f = l.flatMap g := by
  induction l with
  | nil => rfl
  | cons a t ih =>
    rw [List.flatMap_cons, List.flatMap_cons, h a (by simp),
      ih fun b hb => h b (by simp [hb])]

/-- Collecting the attribute fibers of a duplicate-free covering id list
is a permutation of the attribute list: `saveProject` groups attributes
by owning entity without losing or duplicating any. -/
theorem filter_fiber_perm :
    ∀ (ids : List String) (as : List ERAttribute), ids.Nodup →
      (∀ a ∈ as, a.entityId ∈ ids) →
      (ids.flatMap fun i => as.filter (·.entityId = i)).Perm as := by
  intro ids
  induction ids with
  | nil =>
    intro as _ hcov
    have hnil : as = [] := List.eq_nil_iff_forall_not_mem.mpr
      fun a ha => by simpa using hcov a ha
    simp [hnil]
  | cons i t ih =>
    intro as hnd hcov
    obtain ⟨hni, hndt⟩ := List.nodup_cons.mp hnd
    rw [List.flatMap_cons]
    have hstep : (t.flatMap fun j => as.filter (·.entityId = j)) =
        t.flatMap fun j =>
          (as.filter fun a => !decide (a.entityId = i)).filter
            (·.entityId = j) := by
      refine (flatMap_congr_mem fun j hj => ?_).symm
      rw [List.filter_filter]
      refine List.filter_congr fun a _ => ?_
      by_cases h : a.entityId = j
      · have hji : j ≠ i := fun hji => hni (hji ▸ hj)
        have hne : ¬ a.entityId = i := fun hh => hji (h.symm.trans hh)
        simp [h, hne, hji]
      · simp [h]
    rw [hstep]
    have hcov' : ∀ a ∈ as.filter fun a => !decide (a.entityId = i),
        a.entityId ∈ t := by
      intro a ha
      obtain ⟨hmem, hdec⟩ := List.mem_filter.mp ha
      have hne : ¬ a.entityId = i := by simpa using hdec
      rcases List.mem_cons.mp (hcov a hmem) with h | h
      · exact absurd h hne
      · exact h
    exact (List.Perm.append_left (as.filter (·.entityId = i))
      (ih _ hndt hcov')).trans (List.filter_append_perm _ as)

/-- Restoring a saved entity record reproduces the original entity when
its display name is non-empty (the `displayName || name` fallback in the
`EREntity` constructor is then the identity). -/
theorem loadEntity_roundtrip (env : Env) (e : EREntity)
    (attrs : List SavedAttribute) (hdn : e.displayName ≠ "") :
    loadEntity env
      { id := e.id, name := e.name, displayName := e.displayName,
        x := e.x, y := e.y, width := e.width, height := e.height,
        attributes := attrs } = e := by
  simp only [loadEntity, mkEntity, jsOrName, if_neg hdn]

/-- Restoring a saved attribute record of an entity fiber reproduces the
original attribute when its display name is non-empty. -/
theorem loadAttribute_roundtrip (env : Env) (a : ERAttribute)
    (hdn : a.displayName ≠ "") :
    loadAttribute env a.entityId
      { id := a.id, name := a.name, displayName := a.displayName,
        type := a.type, isPK := a.isPK, isFK := a.isFK,
        comment := a.comment, x := a.x, y := a.y, rx := a.rx,
        ry := a.ry } = a := by
  simp only [loadAttribute, mkAttribute, jsOrName, if_neg hdn]

/-- Restoring a saved relationship record reproduces the original up to
the join-attribute names, which are not part of the snapshot. -/
theorem loadRelationship_roundtrip (env : Env) (r : ERRelationship)
    (hdn : r.displayName ≠ "") :
    loadRelationship env
      { id := r.id, name := r.name, displayName := r.displayName,
        fromEntityId := r.fromEntityId, toEntityId := r.toEntityId,
        type := r.type, x := r.x, y := r.y, width := r.width,
        height := r.height } =
      { r with fromAttr := none, toAttr := none } := by
  simp only [loadRelationship, mkRelationship, jsOrName, if_neg hdn]

/-- C3 amended: reconstructing a Model from its `saveProject` snapshot
reproduces it exactly — entities with full field equality, attributes
with full field equality up to the snapshot's regrouping by owning
entity (a permutation), and relationships up to the join-attribute
names `fromAttr`/`toAttr`, which the snapshot does not record — provided
entity ids are unique, every attribute's `entityId` resolves to a saved
entity, and all display names are non-empty (an empty display name is
replaced by the canonical name on load via the constructor's
`displayName || name` fallback). -/
theorem saveProject_loadProject_roundtrip (env : Env) (sql : String)
    (m : Model) (hids : (m.entities.map (·.id)).Nodup)
    (hown : ∀ a ∈ m.attributes, a.entityId ∈ m.entities.map (·.id))
    (hdnE : ∀ e ∈ m.entities, e.displayName ≠ "")
    (hdnA : ∀ a ∈ m.attributes, a.displayName ≠ "")
    (hdnR : ∀ r ∈ m.relationships, r.displayName ≠ "") :
    (loadProject env (saveProject sql m)).entities = m.entities ∧
    (loadProject env (saveProject sql m)).attributes.Perm m.attributes ∧
    (loadProject env (saveProject sql m)).relationships =
      m.relationships.map fun r =>
        { r with fromAttr := none, toAttr := none } := by
  refine ⟨?_, ?_, ?_⟩
  · dsimp only [loadProject, saveProject]
    rw [List.map_map]
    conv_rhs => rw [← List.map_id m.entities]
    refine List.map_congr_left fun e he => ?_
    exact loadEntity_roundtrip env e _ (hdnE e he)
  · dsimp only [loadProject, saveProject]
    rw [List.flatMap_map]
    have hbody : ∀ e ∈ m.entities,
        ((m.attributes.filter (·.entityId = e.id)).map fun a =>
            ({ id := a.id, name := a.name, displayName := a.displayName,
               type := a.type, isPK := a.isPK, isFK := a.isFK,
               comment := a.comment, x := a.x, y := a.y, rx := a.rx,
               ry := a.ry } : SavedAttribute)).map
          (loadAttribute env e.id) =
        m.attributes.filter (·.entityId = e.id) := by
      intro e _
      rw [List.map_map]
      conv_rhs =>
        rw [← List.map_id (m.attributes.filter (·.entityId = e.id))]
      refine List.map_congr_left fun a ha => ?_
      obtain ⟨hmem, hfib⟩ := List.mem_filter.mp ha
      have hfib' : a.entityId = e.id := by simpa using hfib
      show loadAttribute env e.id _ = a
      rw [← hfib']
      exact loadAttribute_roundtrip env a (hdnA a hmem)
    rw [flatMap_congr_mem hbody]
    have hswap :
        (m.entities.flatMap fun e =>
          m.attributes.filter (·.entityId = e.id)) =
        (m.entities.map (·.id)).flatMap fun i =>
          m.attributes.filter (·.entityId = i) :=
      (List.flatMap_map (·.id)
        (fun i => m.attributes.filter (·.entityId = i)) m.entities).symm
    rw [hswap]
    exact filter_fiber_perm (m.entities.map (·.id)) m.attributes hids hown
  · dsimp only [loadProject, saveProject]
    rw [List.map_map]
    refine List.map_congr_left fun r hr => ?_
    exact loadRelationship_roundtrip env r (hdnR r hr)

/-- C3 counterexample: on a Model whose entity has an empty display name
and whose attribute is orphaned, save-then-load changes the entity's
display name (the constructor's `displayName || name` fallback replaces
it with the canonical name) and drops the attribute (the snapshot only
keeps attributes grouped under a resolving entity) — so the round-trip
is not exact for every Model state. -/
theorem saveProject_loadProject_not_exact :
    (loadProject envW (saveProject "" modelBlankAndOrphan)).entities.map
        (·.displayName) = ["Employee"] ∧
    modelBlankAndOrphan.entities.map (·.displayName) = [""] ∧
    (loadProject envW (saveProject "" modelBlankAndOrphan)).attributes =
      [] ∧
    modelBlankAndOrphan.attributes ≠ [] := by
  refine ⟨?_, by simp [modelBlankAndOrphan], ?_, by simp [modelBlankAndOrphan]⟩
  · simp [loadProject, saveProject, loadEntity, mkEntity, jsOrName,
      modelBlankAndOrphan]
  · simp [loadProject, saveProject, modelBlankAndOrphan]

/-- Witness for `saveProject_loadProject_roundtrip` on
`modelRoundtripW`, discharging all five hypotheses. -/
theorem saveProject_loadProject_roundtrip_witness :
    (loadProject envW (saveProject "CREATE TABLE E" modelRoundtripW)).entities =
      modelRoundtripW.entities ∧
    (loadProject envW
        (saveProject "CREATE TABLE E" modelRoundtripW)).attributes.Perm
      modelRoundtripW.attributes ∧
    (loadProject envW
        (saveProject "CREATE TABLE E" modelRoundtripW)).relationships =
      modelRoundtripW.relationships.map fun r =>
        { r with fromAttr := none, toAttr := none } :=
  saveProject_loadProject_roundtrip envW "CREATE TABLE E" modelRoundtripW
    (by simp [modelRoundtripW, entityScenario])
    (by simp [modelRoundtripW, entityScenario, attrOwnedW])
    (by simp [modelRoundtripW, entityScenario])
    (by simp [modelRoundtripW, attrOwnedW])
    (by simp [modelRoundtripW, relOwnedW])

/-- `placeRing` rewrites only attribute positions: the `attrShape` image
is unchanged. -/
theorem placeRing_shape (env : Env) (eid : String) (cx cy fx fy : ℚ)
    (n : ℕ) :
    ∀ (l : List ERAttribute) (i : ℕ),
      (placeRing env eid cx cy fx fy n i l).map attrShape =
        l.map attrShape := by
  intro l
  induction l with
  | nil => intro i; rfl
  | cons a t ih =>
    intro i
    unfold placeRing
    by_cases h : a.entityId = eid
    · rw [if_pos h, List.map_cons, List.map_cons, ih]
      exact congrArg (· :: List.map attrShape t) rfl
    · rw [if_neg h, List.map_cons, List.map_cons, ih]

/-- A `map`-level equality of shapes gives the pointwise relation. -/
theorem map_attrShape_forall₂ :
    ∀ {l l' : List ERAttribute}, l.map attrShape = l'.map attrShape →
      List.Forall₂ (fun a b => attrShape a = attrShape b) l l' := by
  intro l
  induction l with
  | nil =>
    intro l' h
    cases l' with
    | nil => exact .nil
    | cons b t => simp at h
  | cons a t ih =>
    intro l' h
    cases l' with
    | nil => simp at h
    | cons b t' =>
      rw [List.map_cons, List.map_cons] at h
      injection h with h1 h2
      exact .cons h1 (ih h2)

/-- Conjunction of two pointwise relations. -/
theorem forall₂_conj {α β : Type} {R S : α → β → Prop} :
    ∀ {l : List α} {l' : List β}, List.Forall₂ R l l' →
      List.Forall₂ S l l' →
      List.Forall₂ (fun a b => R a b ∧ S a b) l l' := by
  intro l l' h1
  induction h1 with
  | nil => intro _; exact .nil
  | cons hab htail ih =>
    intro h2
    obtain ⟨hab', htail'⟩ := List.forall₂_cons.mp h2
    exact .cons ⟨hab, hab'⟩ (ih htail')

/-- Filtering an entity fiber commutes with taking shapes (the fiber
predicate only reads `entityId`, which `attrShape` preserves). -/
theorem map_shape_filter (l : List ERAttribute) (i : String) :
    (l.map attrShape).filter (·.entityId = i) =
      (l.filter (·.entityId = i)).map attrShape :=
  List.filter_map attrShape l

/-- Shape-equal lists have shape-equal entity fibers. -/
theorem shape_filter {l l' : List ERAttribute} (i : String)
    (h : l.map attrShape = l'.map attrShape) :
    (l.filter (·.entityId = i)).map attrShape =
      (l'.filter (·.entityId = i)).map attrShape := by
  rw [← map_shape_filter, ← map_shape_filter, h]

/-- Shape-equal lists have equal length. -/
theorem shape_length {l l' : List ERAttribute}
    (h : l.map attrShape = l'.map attrShape) : l.length = l'.length := by
  have h' := congrArg List.length h
  simpa using h'

/-- Shape-equal lists have equal `isEmpty`. -/
theorem shape_isEmpty {l l' : List ERAttribute}
    (h : l.map attrShape = l'.map attrShape) :
    l.isEmpty = l'.isEmpty := by
  cases l <;> cases l' <;> simp_all

/-- A fold whose step ignores positions is determined by shapes. -/
theorem foldl_attrShape {β : Type} (g : β → ERAttribute → β)
    (hg : ∀ b a, g b (attrShape a) = g b a) :
    ∀ {l l' : List ERAttribute},
      l.map attrShape = l'.map attrShape →
      ∀ c : β, l.foldl g c = l'.foldl g c := by
  have key : ∀ (u : List ERAttribute) (c : β),
      u.foldl g c = (u.map attrShape).foldl g c := by
    intro u c
    rw [List.foldl_map]
    congr 1
    funext b a
    exact (hg b a).symm
  intro l l' h c
  rw [key l c, key l' c, h]

/-- The base ring radii are determined by the entity and the shapes of
its attribute fiber. -/
theorem arrangeBaseRadii_shape (env : Env) (entity : EREntity)
    {fX fY : List ERAttribute} (h : fX.map attrShape = fY.map attrShape) :
    arrangeBaseRadii env entity fX = arrangeBaseRadii env entity fY := by
  unfold arrangeBaseRadii
  rw [foldl_attrShape (fun sum attr => sum + attr.rx * 2 + 20)
    (fun _ _ => rfl) h]

/-- The estimated ring radii are determined by the entity's size and the
shapes of its attribute fiber. -/
theorem estimateAttributeRadii_shape (env : Env) {e1 e2 : EREntity}
    (hw : e1.width = e2.width) (hh : e1.height = e2.height)
    {fX fY : List ERAttribute}
    (h : fX.map attrShape = fY.map attrShape) :
    estimateAttributeRadii env e1 fX = estimateAttributeRadii env e2 fY := by
  unfold estimateAttributeRadii
  rw [shape_isEmpty h, hw, hh,
    foldl_attrShape (fun m a => max m a.rx) (fun _ _ => rfl) h,
    foldl_attrShape (fun m a => max m a.ry) (fun _ _ => rfl) h,
    foldl_attrShape (fun sum a => sum + a.rx * 2 + 20) (fun _ _ => rfl) h]

/-- The `cons` unfolding of `placeRing`. -/
theorem placeRing_cons (env : Env) (eid : String) (cx cy fx fy : ℚ)
    (n i : ℕ) (a : ERAttribute) (t : List ERAttribute) :
    placeRing env eid cx cy fx fy n i (a :: t) =
      if a.entityId = eid then
        { a with x := cx + (env.ringDir n i).1 * fx,
                 y := cy + (env.ringDir n i).2 * fy }
          :: placeRing env eid cx cy fx fy n (i + 1) t
      else a :: placeRing env eid cx cy fx fy n i t := rfl

/-- Re-running `placeRing` with the same parameters assigns the same
positions: it is idempotent. -/
theorem placeRing_idem (env : Env) (eid : String) (cx cy fx fy : ℚ)
    (n : ℕ) :
    ∀ (l : List ERAttribute) (i : ℕ),
      placeRing env eid cx cy fx fy n i
          (placeRing env eid cx cy fx fy n i l) =
        placeRing env eid cx cy fx fy n i l := by
  intro l
  induction l with
  | nil => intro i; rfl
  | cons a t ih =>
    intro i
    by_cases h : a.entityId = eid
    · rw [placeRing_cons, if_pos h, placeRing_cons, if_pos h, ih (i + 1)]
    · rw [placeRing_cons, if_neg h, placeRing_cons, if_neg h, ih i]

/-- `placeRing` modifies only the attributes of its entity. -/
theorem placeRing_mod (env : Env) (eid : String) (cx cy fx fy : ℚ)
    (n : ℕ) :
    ∀ (l : List ERAttribute) (i : ℕ),
      List.Forall₂ (fun a b => ¬ a.entityId = eid → a = b) l
        (placeRing env eid cx cy fx fy n i l) := by
  intro l
  induction l with
  | nil => intro i; exact .nil
  | cons a t ih =>
    intro i
    by_cases h : a.entityId = eid
    · rw [placeRing_cons, if_pos h]
      exact .cons (fun hn => absurd h hn) (ih (i + 1))
    · rw [placeRing_cons, if_neg h]
      exact .cons (fun _ => rfl) (ih i)

/-- Transfer of a `placeRing` fixpoint: if two lists agree on entity
ownership pointwise and coincide on the placed entity's fiber, then a
fixpoint of one transfers to the other. -/
theorem placeRing_fix_transfer (env : Env) (eid : String)
    (cx cy fx fy : ℚ) (n : ℕ) :
    ∀ {l l' : List ERAttribute},
      List.Forall₂ (fun a b => a.entityId = b.entityId ∧
        (a.entityId = eid → a = b)) l l' →
      ∀ i : ℕ, placeRing env eid cx cy fx fy n i l = l →
        placeRing env eid cx cy fx fy n i l' = l' := by
  intro l l' hrel
  induction hrel with
  | nil => intro i _; rfl
  | @cons a b t t' hab htail ih =>
    intro i hfix
    obtain ⟨hid, hown⟩ := hab
    rw [placeRing_cons] at hfix
    rw [placeRing_cons]
    by_cases h : a.entityId = eid
    · rw [if_pos h] at hfix
      have hb : b.entityId = eid := hid ▸ h
      rw [if_pos hb]
      injection hfix with h1 h2
      have hba : a = b := hown h
      subst hba
      rw [ih (i + 1) h2]
      exact congrArg (· :: t') h1
    · rw [if_neg h] at hfix
      have hb : ¬ b.entityId = eid := hid ▸ h
      rw [if_neg hb]
      injection hfix with h1 h2
      rw [ih i h2]

/-- `arrangeAttributes` when the entity is not found. -/
theorem arrangeAttributes_of_find_none (env : Env)
    (es : List EREntity) (l : List ERAttribute) (eid : String)
    (h : es.find? (·.id = eid) = none) :
    arrangeAttributes env es l eid = l := by
  unfold arrangeAttributes
  rw [h]

/-- `arrangeAttributes` when the entity owns no attributes. -/
theorem arrangeAttributes_of_empty_fiber (env : Env)
    (es : List EREntity) (l : List ERAttribute) (eid : String)
    (entity : EREntity) (h : es.find? (·.id = eid) = some entity)
    (he : (l.filter (·.entityId = eid)).isEmpty = true) :
    arrangeAttributes env es l eid = l := by
  unfold arrangeAttributes
  rw [h]
  exact if_pos he

/-- `arrangeAttributes` on a non-empty fiber is a `placeRing` with the
shape-determined parameters. -/
theorem arrangeAttributes_of_fiber (env : Env) (es : List EREntity)
    (l : List ERAttribute) (eid : String) (entity : EREntity)
    (h : es.find? (·.id = eid) = some entity)
    (he : ¬ (l.filter (·.entityId = eid)).isEmpty = true) :
    arrangeAttributes env es l eid =
      placeRing env eid (entity.x + entity.width / 2)
        (entity.y + entity.height / 2)
        (arrangeFinalRadii entity (es.filter (¬ ·.id = eid))
          (arrangeBaseRadii env entity
            (l.filter (·.entityId = eid))).1
          (arrangeBaseRadii env entity
            (l.filter (·.entityId = eid))).2).1
        (arrangeFinalRadii entity (es.filter (¬ ·.id = eid))
          (arrangeBaseRadii env entity
            (l.filter (·.entityId = eid))).1
          (arrangeBaseRadii env entity
            (l.filter (·.entityId = eid))).2).2
        (l.filter (·.entityId = eid)).length 0 l := by
  unfold arrangeAttributes
  rw [h]
  exact if_neg he

/-- `arrangeAttributes` rewrites only attribute positions. -/
theorem arrangeAttributes_shape (env : Env) (es : List EREntity)
    (l : List ERAttribute) (eid : String) :
    (arrangeAttributes env es l eid).map attrShape = l.map attrShape := by
  rcases hfind : es.find? (·.id = eid) with _ | entity
  · rw [arrangeAttributes_of_find_none env es l eid hfind]
  · by_cases he : (l.filter (·.entityId = eid)).isEmpty = true
    · rw [arrangeAttributes_of_empty_fiber env es l eid entity hfind he]
    · rw [arrangeAttributes_of_fiber env es l eid entity hfind he]
      exact placeRing_shape env eid _ _ _ _ _ l 0

/-- `arrangeAttributes` modifies only the attributes of its entity. -/
theorem arrangeAttributes_mod (env : Env) (es : List EREntity)
    (l : List ERAttribute) (eid : String) :
    List.Forall₂ (fun a b => ¬ a.entityId = eid → a = b) l
      (arrangeAttributes env es l eid) := by
  have hrefl : List.Forall₂ (fun a b => ¬ a.entityId = eid → a = b) l l :=
    List.forall₂_same.mpr fun a _ _ => rfl
  rcases hfind : es.find? (·.id = eid) with _ | entity
  · rw [arrangeAttributes_of_find_none env es l eid hfind]
    exact hrefl
  · by_cases he : (l.filter (·.entityId = eid)).isEmpty = true
    · rw [arrangeAttributes_of_empty_fiber env es l eid entity hfind he]
      exact hrefl
    · rw [arrangeAttributes_of_fiber env es l eid entity hfind he]
      exact placeRing_mod env eid _ _ _ _ _ l 0

/-- `arrangeAttributes` is idempotent: re-ringing the same entity
recomputes the same radii (they depend only on shapes, which the first
pass preserved) and assigns the same positions. -/
theorem arrangeAttributes_idem (env : Env) (es : List EREntity)
    (l : List ERAttribute) (eid : String) :
    arrangeAttributes env es (arrangeAttributes env es l eid) eid =
      arrangeAttributes env es l eid := by
  rcases hfind : es.find? (·.id = eid) with _ | entity
  · have h1 := arrangeAttributes_of_find_none env es l eid hfind
    rw [h1]
    exact h1
  · by_cases he : (l.filter (·.entityId = eid)).isEmpty = true
    · have h1 := arrangeAttributes_of_empty_fiber env es l eid entity
        hfind he
      rw [h1]
      exact h1
    · have hshape := arrangeAttributes_shape env es l eid
      set A := arrangeAttributes env es l eid with hAdef
      have hfib : (A.filter (·.entityId = eid)).map attrShape =
          ((l.filter (·.entityId = eid)).map attrShape) :=
        shape_filter eid hshape
      have he' : ¬ (A.filter (·.entityId = eid)).isEmpty = true := by
        rw [shape_isEmpty hfib]
        exact he
      have h2 := arrangeAttributes_of_fiber env es A eid entity hfind he'
      rw [arrangeBaseRadii_shape env entity hfib, shape_length hfib] at h2
      have h1 := arrangeAttributes_of_fiber env es l eid entity hfind he
      rw [h2, hAdef, h1]
      exact placeRing_idem env eid _ _ _ _ _ l 0

/-- Re-ringing another entity preserves an `arrangeAttributes`
fixpoint: the other pass keeps this entity's fiber and every shape
unchanged, so the recomputed ring positions coincide with the stored
ones. -/
theorem arrangeAttributes_fix_preserved (env : Env)
    (es : List EREntity) {l : List ERAttribute} (eid eid' : String)
    (hfix : arrangeAttributes env es l eid = l) :
    arrangeAttributes env es (arrangeAttributes env es l eid') eid =
      arrangeAttributes env es l eid' := by
  by_cases heq : eid' = eid
  · subst heq
    exact arrangeAttributes_idem env es l eid'
  · have hshape := arrangeAttributes_shape env es l eid'
    set Y := arrangeAttributes env es l eid' with hYdef
    have hmod : List.Forall₂ (fun a b => ¬ a.entityId = eid' → a = b) l
        Y := arrangeAttributes_mod env es l eid'
    have hidrel : List.Forall₂ (fun a b => a.entityId = b.entityId) l
        Y :=
      (map_attrShape_forall₂ hshape.symm).imp fun a b hab =>
        congrArg ERAttribute.entityId hab
    have hrel : List.Forall₂ (fun a b => a.entityId = b.entityId ∧
        (a.entityId = eid → a = b)) l Y :=
      (forall₂_conj hidrel hmod).imp fun a b hab =>
        ⟨hab.1, fun ha => hab.2 fun hcontra =>
          heq (hcontra.symm.trans ha)⟩
    rcases hfind : es.find? (·.id = eid) with _ | entity
    · exact arrangeAttributes_of_find_none env es Y eid hfind
    · have hfibshape : (Y.filter (·.entityId = eid)).map attrShape =
          (l.filter (·.entityId = eid)).map attrShape :=
        shape_filter eid hshape
      by_cases he : (l.filter (·.entityId = eid)).isEmpty = true
      · have heY : (Y.filter (·.entityId = eid)).isEmpty = true := by
          rw [shape_isEmpty hfibshape]
          exact he
        exact arrangeAttributes_of_empty_fiber env es Y eid entity hfind
          heY
      · have heY : ¬ (Y.filter (·.entityId = eid)).isEmpty = true := by
          rw [shape_isEmpty hfibshape]
          exact he
        have hY2 := arrangeAttributes_of_fiber env es Y eid entity hfind
          heY
        rw [arrangeBaseRadii_shape env entity hfibshape,
          shape_length hfibshape] at hY2
        have hl2 := arrangeAttributes_of_fiber env es l eid entity hfind
          he
        rw [hl2] at hfix
        rw [hY2]
        exact placeRing_fix_transfer env eid _ _ _ _ _ hrel 0 hfix

/-- Folding re-ring passes preserves an `arrangeAttributes` fixpoint. -/
theorem foldArrange_fix_preserved (env : Env) (es : List EREntity) :
    ∀ (order : List EREntity) (a : List ERAttribute) (eid : String),
      arrangeAttributes env es a eid = a →
      arrangeAttributes env es
          (order.foldl
            (fun attrs e => arrangeAttributes env es attrs e.id) a)
          eid =
        order.foldl (fun attrs e => arrangeAttributes env es attrs e.id)
          a := by
  intro order
  induction order with
  | nil => intro a eid hfix; exact hfix
  | cons x t ih =>
    intro a eid hfix
    rw [List.foldl_cons]
    exact ih _ eid (arrangeAttributes_fix_preserved env es eid x.id hfix)

/-- After one full re-ring pass, every entity of the pass is settled:
re-ringing it again is the identity. -/
theorem foldArrange_settles (env : Env) (es : List EREntity) :
    ∀ (order : List EREntity) (a : List ERAttribute) (e : EREntity),
      e ∈ order →
      arrangeAttributes env es
          (order.foldl
            (fun attrs e => arrangeAttributes env es attrs e.id) a)
          e.id =
        order.foldl (fun attrs e => arrangeAttributes env es attrs e.id)
          a := by
  intro order
  induction order with
  | nil => intro a e he; exact absurd he (List.not_mem_nil e)
  | cons x t ih =>
    intro a e he
    rw [List.foldl_cons]
    rcases List.mem_cons.mp he with rfl | he'
    · exact foldArrange_fix_preserved env es t _ e.id
        (arrangeAttributes_idem env es a e.id)
    · exact ih _ e he'

/-- A full re-ring pass over settled attributes is the identity. -/
theorem foldArrange_of_settled (env : Env) (es : List EREntity) :
    ∀ (order : List EREntity) (a : List ERAttribute),
      (∀ e ∈ order, arrangeAttributes env es a e.id = a) →
      order.foldl (fun attrs e => arrangeAttributes env es attrs e.id)
          a = a := by
  intro order
  induction order with
  | nil => intro a _; rfl
  | cons x t ih =>
    intro a hset
    rw [List.foldl_cons, hset x (List.mem_cons_self x t)]
    exact ih a fun e he => hset e (List.mem_cons_of_mem x he)

/-- Running the per-entity re-ring pass twice equals running it once. -/
theorem foldArrange_idem (env : Env) (es : List EREntity)
    (order : List EREntity) (a : List ERAttribute) :
    order.foldl (fun attrs e => arrangeAttributes env es attrs e.id)
        (order.foldl
          (fun attrs e => arrangeAttributes env es attrs e.id) a) =
      order.foldl (fun attrs e => arrangeAttributes env es attrs e.id)
        a :=
  foldArrange_of_settled env es order _ fun e he =>
    foldArrange_settles env es order a e he

/-- A full re-ring pass rewrites only attribute positions. -/
theorem foldArrange_shape (env : Env) (es : List EREntity) :
    ∀ (order : List EREntity) (a : List ERAttribute),
      ((order.foldl
          (fun attrs e => arrangeAttributes env es attrs e.id)
          a).map attrShape) = a.map attrShape := by
  intro order
  induction order with
  | nil => intro a; rfl
  | cons x t ih =>
    intro a
    rw [List.foldl_cons, ih]
    exact arrangeAttributes_shape env es a x.id

/-- The dagre node of an entity is determined by its id, label and size
together with the shapes of its attribute fiber. -/
theorem entityLayoutNode_shape (env : Env)
    {a1 a0 : List ERAttribute} (h : a1.map attrShape = a0.map attrShape)
    {e1 e0 : EREntity} (hid : e1.id = e0.id)
    (hdn : e1.displayName = e0.displayName) (hw : e1.width = e0.width)
    (hh : e1.height = e0.height) :
    entityLayoutNode env a1 e1 = entityLayoutNode env a0 e0 := by
  unfold entityLayoutNode
  dsimp only
  rw [hid]
  have hfib : ((a1.filter (·.entityId = e0.id)).map attrShape) =
      (a0.filter (·.entityId = e0.id)).map attrShape :=
    shape_filter e0.id h
  rw [shape_isEmpty hfib, estimateAttributeRadii_shape env hw hh hfib,
    hdn, hw, hh]

/-- Re-positioning a relationship diamond is idempotent: the computed
position depends only on the entity endpoints, which the first
re-positioning kept. -/
theorem layoutRelationship_idem (entities : List EREntity)
    (rel : ERRelationship) :
    layoutRelationship entities (layoutRelationship entities rel) =
      layoutRelationship entities rel := by
  unfold layoutRelationship
  dsimp only
  rcases hf : entities.find? (·.id = rel.fromEntityId) with _ | fe <;>
    rcases ht : entities.find? (·.id = rel.toEntityId) with _ | te <;>
    unfold layoutRelationshipPos <;> rw [hf, ht]

/-- `autoLayout` on a non-empty Model is `autoLayoutResult`. -/
theorem autoLayout_eq (env : Env) (dagre : DagreGraph → String → ℚ × ℚ)
    (m : Model) (hemp : ¬ m.entities.isEmpty = true) :
    autoLayout env dagre m = autoLayoutResult env dagre m := by
  unfold autoLayout autoLayoutResult
  rw [if_neg hemp]

/-- Pointwise equality of maps over pointwise-related lists. -/
theorem map_eq_of_forall₂ {α β γ : Type} {R : α → β → Prop} {f : α → γ}
    {g : β → γ} :
    ∀ {l : List α} {l' : List β}, List.Forall₂ R l l' →
      (∀ a b, R a b → f a = g b) → l.map f = l'.map g := by
  intro l l' h
  induction h with
  | nil => intro _; rfl
  | cons hab htail ih =>
    intro hfg
    rw [List.map_cons, List.map_cons, hfg _ _ hab, ih hfg]

/-- A mapped list is pointwise related to its source when the map
preserves the relation. -/
theorem forall₂_map_left {α β : Type} {R : β → α → Prop} (f : α → β)
    (h : ∀ a, R (f a) a) : ∀ l : List α, List.Forall₂ R (l.map f) l := by
  intro l
  induction l with
  | nil => exact .nil
  | cons a t ih => exact .cons (h a) ih

/-- The dagre graph is determined by the entity ids, labels and sizes,
the attribute shapes, and the relationship endpoints — none of which a
layout pass changes. -/
theorem buildLayoutGraph_stable (env : Env) {m1 m0 : Model}
    (hE : List.Forall₂ (fun e1 e0 => e1.id = e0.id ∧
      e1.displayName = e0.displayName ∧ e1.width = e0.width ∧
      e1.height = e0.height) m1.entities m0.entities)
    (hA : m1.attributes.map attrShape = m0.attributes.map attrShape)
    (hR : List.Forall₂ (fun r1 r0 => r1.fromEntityId = r0.fromEntityId ∧
      r1.toEntityId = r0.toEntityId ∧ r1.displayName = r0.displayName)
      m1.relationships m0.relationships) :
    buildLayoutGraph env m1 = buildLayoutGraph env m0 := by
  unfold buildLayoutGraph
  have hnodes : m1.entities.map (entityLayoutNode env m1.attributes) =
      m0.entities.map (entityLayoutNode env m0.attributes) :=
    map_eq_of_forall₂ hE fun e1 e0 h =>
      entityLayoutNode_shape env hA h.1 h.2.1 h.2.2.1 h.2.2.2
  have hedges : (m1.relationships.map fun rel =>
      ({ source := rel.fromEntityId, target := rel.toEntityId,
         label := rel.displayName } : DagreEdge)) =
      m0.relationships.map fun rel =>
        { source := rel.fromEntityId, target := rel.toEntityId,
          label := rel.displayName } :=
    map_eq_of_forall₂ hR fun r1 r0 h => by
      rw [h.1, h.2.1, h.2.2]
  rw [hnodes, hedges]

/-- Running `autoLayout`'s phases once leaves the dagre graph of the
resulting Model equal to the original's. -/
theorem buildLayoutGraph_after (env : Env)
    (dagre : DagreGraph → String → ℚ × ℚ) (m : Model) :
    buildLayoutGraph env (autoLayoutResult env dagre m) =
      buildLayoutGraph env m := by
  refine buildLayoutGraph_stable env ?_ ?_ ?_
  · show List.Forall₂ _ (layoutEntities env dagre m) m.entities
    unfold layoutEntities
    exact forall₂_map_left _ (fun e => ⟨rfl, rfl, rfl, rfl⟩) m.entities
  · exact foldArrange_shape env (layoutEntities env dagre m)
      (layoutEntities env dagre m) m.attributes
  · exact forall₂_map_left _ (fun r => ⟨rfl, rfl, rfl⟩) m.relationships

/-- Re-running the entity-placement phase on the laid-out Model yields
the same entity positions: the graph is unchanged, and re-applying the
position update with the same dagre output is the identity. -/
theorem layoutEntities_stable (env : Env)
    (dagre : DagreGraph → String → ℚ × ℚ) (m : Model) :
    layoutEntities env dagre (autoLayoutResult env dagre m) =
      layoutEntities env dagre m := by
  conv_lhs => unfold layoutEntities
  rw [buildLayoutGraph_after env dagre m]
  show ((layoutEntities env dagre m).map _) = _
  conv_rhs => unfold layoutEntities
  unfold layoutEntities
  rw [List.map_map]
  exact List.map_congr_left fun e _ => rfl

/-- C4: invoking `autoLayout` twice in succession with no Model mutation
in between yields the same Model — in particular the same final `x`,`y`
positions for every entity, attribute and relationship — as invoking it
once, for every deterministic dagre layout function of the built graph
and spacing configuration. -/
theorem autoLayout_idempotent (env : Env)
    (dagre : DagreGraph → String → ℚ × ℚ) (m : Model) :
    autoLayout env dagre (autoLayout env dagre m) =
      autoLayout env dagre m := by
  by_cases hemp : m.entities.isEmpty = true
  · have h1 : autoLayout env dagre m = m := by
      unfold autoLayout
      rw [if_pos hemp]
    rw [h1]
    exact h1
  · rw [autoLayout_eq env dagre m hemp]
    have hemp1 : ¬ (autoLayoutResult env dagre m).entities.isEmpty =
        true := by
      intro hc
      apply hemp
      have hnil : layoutEntities env dagre m = [] :=
        List.isEmpty_iff.mp hc
      rw [List.isEmpty_iff]
      unfold layoutEntities at hnil
      exact List.map_eq_nil_iff.mp hnil
    rw [autoLayout_eq env dagre _ hemp1]
    have houter : autoLayoutResult env dagre
        (autoLayoutResult env dagre m) =
      { entities :=
          layoutEntities env dagre (autoLayoutResult env dagre m),
        attributes :=
          (layoutEntities env dagre
              (autoLayoutResult env dagre m)).foldl
            (fun attrs entity =>
              arrangeAttributes env
                (layoutEntities env dagre (autoLayoutResult env dagre m))
                attrs entity.id)
            (autoLayoutResult env dagre m).attributes,
        relationships :=
          (autoLayoutResult env dagre m).relationships.map
            (layoutRelationship
              (layoutEntities env dagre
                (autoLayoutResult env dagre m))) } := rfl
    rw [houter, layoutEntities_stable env dagre m]
    dsimp only [autoLayoutResult]
    rw [foldArrange_idem env (layoutEntities env dagre m)
      (layoutEntities env dagre m) m.attributes]
    rw [List.map_map]
    have hrel : List.map
        (layoutRelationship (layoutEntities env dagre m) ∘
          layoutRelationship (layoutEntities env dagre m))
        m.relationships =
      List.map (layoutRelationship (layoutEntities env dagre m))
        m.relationships :=
      List.map_congr_left fun r _ =>
        layoutRelationship_idem (layoutEntities env dagre m) r
    rw [hrel]
